import Mathlib

/-!
Verification of the disk-state consistency subsystem of the buck2 daemon
(`app/buck2_server/src/daemon/disk_state.rs`): the rollout decision
(`DiskStateOptions::new`), the store lifecycle manager
(`maybe_initialize_materializer_sqlite_db`) and the cache directory
reconciler (`delete_unknown_disk_state`), shallowly embedded with the
filesystem and the external sqlite store as explicit state.
-/

namespace DiskState

/-- Error values of the embedding, mirroring `anyhow::Error`:
`io` an I/O error carrying a message, `conf` a configuration-parse error,
`msg` an error created from a bare message (e.g. `Option::context`),
`context` a wrapped error (`.context(...)` / `.with_context(...)`). -/
inductive Err where
  | io : String → Err
  | conf : String → Err
  | msg : String → Err
  | context : String → Err → Err
deriving DecidableEq, Repr

/-- An OS-level file name as returned by `read_dir`: either valid UTF-8
(and, coming from a directory entry, a valid single path component) or
undecodable bytes, distinguished by an abstract id. -/
inductive OsName where
  | utf8 : String → OsName
  | nonUtf8 : Nat → OsName
deriving DecidableEq, Repr

/-- `OsStr::to_str`: `some` exactly when the name is valid UTF-8. -/
def OsName.toStr : OsName → Option String
  | .utf8 s => some s
  | .nonUtf8 _ => none

/-- A direct child of the cache directory: its raw name and whether the
entry is a directory (`entry.path().is_dir()`). Deeper contents are
abstract: the reconciler never inspects them. -/
structure DirEntry where
  name : OsName
  isDir : Bool
deriving DecidableEq, Repr

/-- The filesystem state visible to `delete_unknown_disk_state`:
`contents` is `none` when `cache_dir_path` does not exist, otherwise the
direct children in `read_dir` order, each possibly an enumeration error
(`read_dir` yields `io::Result<DirEntry>` items); `readDirError` is the
error of the initial `fs_util::read_dir` call itself, if any;
`removeFails` gives, per decoded child name, the error message of
`remove_path_recursive` on that child, if that deletion fails. -/
structure Fs where
  contents : Option (List (Except String DirEntry))
  readDirError : Option String
  removeFails : String → Option String

/-- The direct children of the cache directory (empty when the directory
does not exist). -/
def Fs.children (fs : Fs) : List (Except String DirEntry) :=
  fs.contents.getD []

/-- One pass of the loop body of `delete_unknown_disk_state` over the
`read_dir` entries: returns the result of the `try` block together with
the direct children that remain on disk afterwards. An entry is deleted
when its name is not in `known_dir_names` or it is not a directory;
a non-UTF-8 name or an I/O error stops the pass, leaving the current and
all later entries in place. -/
def reconcileEntries (known : List String) (rf : String → Option String) :
    List (Except String DirEntry) → Except Err Unit × List (Except String DirEntry)
  | [] => (.ok (), [])
  | .error e :: rest => (.error (.io e), .error e :: rest)
  | .ok entry :: rest =>
    match OsName.toStr entry.name with
    | none => (.error (.msg "Filename is not UTF-8"), .ok entry :: rest)
    | some fname =>
      if !(known.contains fname) || !entry.isDir then
        match rf fname with
        | some m => (.error (.io m), .ok entry :: rest)
        | none => reconcileEntries known rf rest
      else
        let (r, out) := reconcileEntries known rf rest
        (r, .ok entry :: out)

/-- The `with_context` wrapper applied to the whole `try` block:
"deleting unrecognized caches in {cache_dir_path} to prevent them from
going stale". -/
def reconcileContext (cacheDirPath : String) (e : Err) : Err :=
  .context ("deleting unrecognized caches in " ++ cacheDirPath ++
    " to prevent them from going stale") e

/-- `delete_unknown_disk_state(cache_dir_path, known_dir_names, fs)`:
if the cache directory exists, enumerate its direct children and delete
every entry whose decoded name is not in `known_dir_names` or which is
not a directory; any error is wrapped with the cache directory path.
Returns the call's result together with the filesystem afterwards. -/
def delete_unknown_disk_state (cacheDirPath : String) (known : List String)
    (fs : Fs) : Except Err Unit × Fs :=
  match fs.contents with
  | none => (.ok (), fs)
  | some entries =>
    match fs.readDirError with
    | some e => (.error (reconcileContext cacheDirPath (.io e)), fs)
    | none =>
      let (r, out) := reconcileEntries known fs.removeFails entries
      (Except.mapError (reconcileContext cacheDirPath) r,
        { fs with contents := some out })

/-- Whether a direct child survives reconciliation on a successful pass:
it decodes, its name is in the allow-list and it is a directory. -/
def keptEntry (known : List String) : Except String DirEntry → Bool
  | .ok e =>
    match OsName.toStr e.name with
    | some s => known.contains s && e.isDir
    | none => false
  | .error _ => false

/-- A `read_dir` item that is a real entry with a decodable name. -/
def entryDecodes : Except String DirEntry → Bool
  | .ok e => (OsName.toStr e.name).isSome
  | .error _ => false

/-- A `read_dir` item whose deletion, were it attempted, would succeed
under the deletion oracle `rf`. -/
def removeOk (rf : String → Option String) : Except String DirEntry → Bool
  | .ok e =>
    match OsName.toStr e.name with
    | some s => (rf s).isNone
    | none => true
  | .error _ => true

/-- `MaterializationMethod` (from `buck2_execute`). Modelled from the spec:
the enum itself is outside the shown sources; the code matches on the two
deferred variants, the spec adds the immediate/eager mode. -/
inductive MaterializationMethod where
  | immediate
  | deferred
  | deferredSkipFinalArtifacts
deriving DecidableEq, Repr

/-- The `matches!` test of `DiskStateOptions::new`: true exactly on the
deferred-materialization variants. -/
def MaterializationMethod.isDeferred : MaterializationMethod → Bool
  | .deferred => true
  | .deferredSkipFinalArtifacts => true
  | .immediate => false

/-- The `buck2.sqlite_materializer_state` rollout-percentage setting of
the root config, as seen through `parse::<RolloutPercentage>` and `roll()`.
Modelled from the spec: `RolloutPercentage` lives outside the shown
sources; `absent` is a missing key (parse yields `Ok(None)`, defaulted to
`RolloutPercentage::never()` whose roll is false), `malformed` a present
but unparsable value (parse yields `Err`), `valid roll` a parsed
percentage together with the outcome of its (possibly random) roll. -/
inductive RolloutSetting where
  | absent
  | malformed
  | valid : Bool → RolloutSetting
deriving DecidableEq, Repr

/-- `DiskStateOptions`: the startup decision record. -/
structure DiskStateOptions where
  sqlite_materializer_state : Bool
deriving DecidableEq, Repr

/-- `DiskStateOptions::new(root_config, materialization_method)`.
The Rust `&&` short-circuits: the rollout setting is parsed (and its
parse error propagated by `?`) only when the materialization method is
deferred. -/
def DiskStateOptions.new (rollout : RolloutSetting)
    (materialization_method : MaterializationMethod) :
    Except Err DiskStateOptions :=
  if materialization_method.isDeferred then
    match rollout with
    | .malformed => .error (.conf "invalid value for buck2.sqlite_materializer_state")
    | .absent => .ok ⟨false⟩
    | .valid roll => .ok ⟨roll⟩
  else
    .ok ⟨false⟩

/-- Prior materializer state: an opaque snapshot owned by the external
store; this subsystem never inspects it, so its payload is abstract. -/
structure MaterializerState where
  blob : Nat
deriving DecidableEq, Repr

/-- `MaterializerStateIdentity`: opaque wrapper around the timestamp
string read back from the store's metadata. -/
structure MaterializerStateIdentity where
  value : String
deriving DecidableEq, Repr

/-- A live handle to the opened sqlite store. Only the one read this
subsystem performs is visible: `created_by_table().get
("timestamp_on_initialization")`, which can fail, or succeed with or
without a stored value. -/
structure StoreHandle where
  getTimestampOnInit : Except String (Option String)
deriving Repr

/-- The `defer_write_actions` flag of `DeferredMaterializerConfigs`. -/
structure DeferredMaterializerConfigs where
  defer_write_actions : Bool
deriving DecidableEq, Repr

/-- `DB_SCHEMA_VERSION` (from `buck2_execute_impl`). Modelled from the
spec: a fixed schema-version constant; its value is irrelevant here. -/
def DB_SCHEMA_VERSION : Nat := 0

/-- The well-known metadata key `"timestamp_on_initialization"`. -/
def timestamp_key : String := "timestamp_on_initialization"

/-- The world the store lifecycle manager acts on:
`matStatePathExists` whether the materializer-state path exists;
`removeMatState` the outcome of `remove_path_recursive` on that path,
were it attempted; `versionParse` the outcome of parsing
`buck2.sqlite_materializer_state_version`; `storeInit` the outcome of
`MaterializerStateSqliteDb::initialize`, yielding a handle and the
prior-state load result; `metadata` the collected process metadata. -/
structure StoreWorld where
  matStatePathExists : Bool
  removeMatState : Except String Unit
  versionParse : Except String (Option String)
  storeInit : Except String (StoreHandle × Except String MaterializerState)
  metadata : List (String × String)

/-- Lookup in the collected metadata map. -/
def lookupMeta (key : String) (m : List (String × String)) : Option String :=
  (m.find? (fun kv => kv.1 == key)).map (fun kv => kv.2)

/-- `maybe_initialize_materializer_sqlite_db(options, paths, io_executor,
root_config, deferred_materializer_configs, fs, digest_config)`.
Disabled: recursively delete the materializer-state path and return
`(None, None)`, propagating a deletion failure. Enabled: build the
versions fingerprint, stamp the metadata with `timestampNow` under
`timestamp_key`, open-or-create the store, read the identity back from
its metadata (absence is fatal), and absorb any prior-state load error
into `None`. Returns the call's result with the world afterwards. -/
def maybe_initialize_materializer_sqlite_db (options : DiskStateOptions)
    (dmc : DeferredMaterializerConfigs) (timestampNow : String)
    (w : StoreWorld) :
    Except Err (Option (StoreHandle × MaterializerStateIdentity) ×
      Option MaterializerState) × StoreWorld :=
  if options.sqlite_materializer_state = false then
    match w.removeMatState with
    | .error e => (.error (.io e), w)
    | .ok _ => (.ok (none, none), { w with matStatePathExists := false })
  else
    let metadata := (timestamp_key, timestampNow) :: w.metadata
    let versions0 := [("schema_version", toString DB_SCHEMA_VERSION),
      ("defer_write_actions", toString dmc.defer_write_actions)]
    match w.versionParse with
    | .error e => (.error (.conf e), w)
    | .ok vOpt =>
      let versions1 :=
        match vOpt with
        | some v => versions0 ++ [("buckconfig_version", v)]
        | none => versions0
      let versions :=
        match lookupMeta "hostname" metadata with
        | some h => versions1 ++ [("hostname", h)]
        | none => versions1
      match w.storeInit with
      | .error e => (.error (.io e), w)
      | .ok (db, load_result) =>
        let _ := versions
        let w' := { w with matStatePathExists := true }
        match db.getTimestampOnInit with
        | .error e =>
          (.error (.context "Error reading creation metadata" (.io e)), w')
        | .ok none =>
          (.error (.msg ("disk state is missing " ++ timestamp_key)), w')
        | .ok (some ts) =>
          let identity := MaterializerStateIdentity.mk ts
          let materializer_state : Option MaterializerState :=
            match load_result with
            | .ok s => some s
            | .error _ => none
          (.ok (some (db, identity), materializer_state), w')

instance {ε α : Type} [DecidableEq ε] [DecidableEq α] :
    DecidableEq (Except ε α) := fun x y =>
  match x, y with
  | .ok a, .ok b =>
    if h : a = b then .isTrue (by rw [h])
    else .isFalse (fun hc => h (Except.ok.inj hc))
  | .error a, .error b =>
    if h : a = b then .isTrue (by rw [h])
    else .isFalse (fun hc => h (Except.error.inj hc))
  | .ok _, .error _ => .isFalse (fun hc => Except.noConfusion hc)
  | .error _, .ok _ => .isFalse (fun hc => Except.noConfusion hc)

/-- A concrete cache directory: one known subdirectory and one unknown
plain file, with no I/O failures. -/
def sampleFs : Fs :=
  { contents := some [Except.ok ⟨OsName.utf8 "materializer_state", true⟩,
      Except.ok ⟨OsName.utf8 "junk", false⟩]
    readDirError := none
    removeFails := fun _ => none }

/-- A concrete cache directory containing a child with an undecodable
name, preceded by a deletable entry and followed by another entry. -/
def sampleBadFs : Fs :=
  { contents := some [Except.ok ⟨OsName.utf8 "junk", false⟩,
      Except.ok ⟨OsName.nonUtf8 0, true⟩,
      Except.ok ⟨OsName.utf8 "later", true⟩]
    readDirError := none
    removeFails := fun _ => none }

/-- A concrete store handle whose metadata read-back succeeds. -/
def sampleDb : StoreHandle := ⟨.ok (some "2023-01-01T00:00:00+00:00")⟩

/-- A concrete store handle whose metadata table lacks the timestamp. -/
def sampleDbNoTs : StoreHandle := ⟨.ok none⟩

/-- A concrete world: all external operations succeed, the prior-state
load fails with a version mismatch. -/
def sampleWorld : StoreWorld :=
  { matStatePathExists := true
    removeMatState := .ok ()
    versionParse := .ok none
    storeInit := .ok (sampleDb, .error "version mismatch")
    metadata := [("hostname", "devhost")] }

/-- Like `sampleWorld`, but the opened store has no stored timestamp. -/
def sampleWorldNoTs : StoreWorld :=
  { sampleWorld with storeInit := .ok (sampleDbNoTs, .error "not found") }

/-! Step equations for `reconcileEntries`. -/

theorem reconcile_nil (known : List String) (rf : String → Option String) :
    reconcileEntries known rf [] = (.ok (), []) := rfl

theorem reconcile_read_err (known : List String) (rf : String → Option String)
    (e : String) (rest : List (Except String DirEntry)) :
    reconcileEntries known rf (.error e :: rest) =
      (.error (.io e), .error e :: rest) := rfl

theorem reconcile_bad_name (known : List String) (rf : String → Option String)
    (entry : DirEntry) (rest : List (Except String DirEntry))
    (h : OsName.toStr entry.name = none) :
    reconcileEntries known rf (.ok entry :: rest) =
      (.error (.msg "Filename is not UTF-8"), .ok entry :: rest) := by
  simp [reconcileEntries, h]

theorem reconcile_del_fail (known : List String) (rf : String → Option String)
    (entry : DirEntry) (rest : List (Except String DirEntry)) (s m : String)
    (hn : OsName.toStr entry.name = some s)
    (hc : (!(known.contains s) || !entry.isDir) = true)
    (hrf : rf s = some m) :
    reconcileEntries known rf (.ok entry :: rest) =
      (.error (.io m), .ok entry :: rest) := by
  simp only [reconcileEntries, hn]
  rw [if_pos hc, hrf]

theorem reconcile_del_ok (known : List String) (rf : String → Option String)
    (entry : DirEntry) (rest : List (Except String DirEntry)) (s : String)
    (hn : OsName.toStr entry.name = some s)
    (hc : (!(known.contains s) || !entry.isDir) = true)
    (hrf : rf s = none) :
    reconcileEntries known rf (.ok entry :: rest) =
      reconcileEntries known rf rest := by
  simp only [reconcileEntries, hn]
  rw [if_pos hc, hrf]

theorem reconcile_keep (known : List String) (rf : String → Option String)
    (entry : DirEntry) (rest : List (Except String DirEntry)) (s : String)
    (hn : OsName.toStr entry.name = some s)
    (hc : (!(known.contains s) || !entry.isDir) = false) :
    reconcileEntries known rf (.ok entry :: rest) =
      ((reconcileEntries known rf rest).1,
        .ok entry :: (reconcileEntries known rf rest).2) := by
  rcases hre : reconcileEntries known rf rest with ⟨r, out⟩
  simp only [reconcileEntries, hn, hre]
  rw [if_neg (by rw [hc]; simp)]

/-! Equations for `delete_unknown_disk_state` by filesystem shape. -/

theorem delete_unknown_eq_absent (path : String) (known : List String)
    (fs : Fs) (h : fs.contents = none) :
    delete_unknown_disk_state path known fs = (.ok (), fs) := by
  simp [delete_unknown_disk_state, h]

theorem delete_unknown_eq_read_err (path : String) (known : List String)
    (fs : Fs) (entries : List (Except String DirEntry)) (e : String)
    (hc : fs.contents = some entries) (hr : fs.readDirError = some e) :
    delete_unknown_disk_state path known fs =
      (.error (reconcileContext path (.io e)), fs) := by
  simp [delete_unknown_disk_state, hc, hr]

theorem delete_unknown_eq_run (path : String) (known : List String)
    (fs : Fs) (entries : List (Except String DirEntry))
    (hc : fs.contents = some entries) (hr : fs.readDirError = none) :
    delete_unknown_disk_state path known fs =
      (Except.mapError (reconcileContext path)
          (reconcileEntries known fs.removeFails entries).1,
        { fs with
          contents := some (reconcileEntries known fs.removeFails entries).2 }) := by
  rcases hre : reconcileEntries known fs.removeFails entries with ⟨r, out⟩
  simp [delete_unknown_disk_state, hc, hr, hre]

/-- C10: if the cache directory path does not exist,
`delete_unknown_disk_state` returns `Ok` and performs no deletion or any
other filesystem mutation. -/
theorem C10_absent_cache_dir_is_noop (path : String) (known : List String)
    (fs : Fs) (h : fs.contents = none) :
    delete_unknown_disk_state path known fs = (.ok (), fs) :=
  delete_unknown_eq_absent path known fs h

/-- C10 witness: a concrete filesystem without the cache directory. -/
theorem C10_absent_cache_dir_is_noop_witness :
    delete_unknown_disk_state "buck-out/v2/cache" ["materializer_state"]
        ⟨none, none, fun _ => none⟩ =
      (.ok (), ⟨none, none, fun _ => none⟩) :=
  C10_absent_cache_dir_is_noop "buck-out/v2/cache" ["materializer_state"]
    ⟨none, none, fun _ => none⟩ rfl

/-- C6: with an immediate (non-deferred) materialization method,
`DiskStateOptions::new` succeeds with `sqlite_materializer_state = false`
for every rollout setting, the malformed one included: the setting is
never consulted. -/
theorem C6_immediate_mode_disables (rollout : RolloutSetting)
    (m : MaterializationMethod) (h : m.isDeferred = false) :
    DiskStateOptions.new rollout m = .ok ⟨false⟩ := by
  simp [DiskStateOptions.new, h]

/-- C6 witness: immediate mode with a malformed rollout setting. -/
theorem C6_immediate_mode_disables_witness :
    DiskStateOptions.new RolloutSetting.malformed
        MaterializationMethod.immediate = .ok ⟨false⟩ :=
  C6_immediate_mode_disables RolloutSetting.malformed
    MaterializationMethod.immediate rfl

/-- C7 counterexample: with an immediate materialization method the
`&&` short-circuits, so a present-but-malformed rollout setting does not
make `DiskStateOptions::new` fail: it returns `Ok` with the feature
disabled, refuting the claim as stated (quantified over every
configuration with a malformed setting). -/
theorem C7_counterexample :
    DiskStateOptions.new RolloutSetting.malformed
        MaterializationMethod.immediate =
      .ok { sqlite_materializer_state := false } ∧
    ∀ e, DiskStateOptions.new RolloutSetting.malformed
        MaterializationMethod.immediate ≠ .error e := by
  refine ⟨rfl, ?_⟩
  intro e h
  simp [DiskStateOptions.new, MaterializationMethod.isDeferred] at h

/-- C7 (amended): when the materialization method is a deferred mode and
the rollout-percentage setting is present but malformed,
`DiskStateOptions::new` fails with a configuration error. -/
theorem C7_malformed_rollout_fails (rollout : RolloutSetting)
    (m : MaterializationMethod) (hm : m.isDeferred = true)
    (hr : rollout = .malformed) :
    ∃ msg, DiskStateOptions.new rollout m = .error (.conf msg) := by
  subst hr
  refine ⟨"invalid value for buck2.sqlite_materializer_state", ?_⟩
  simp [DiskStateOptions.new, hm]

/-- C7 witness: deferred mode with a malformed rollout setting. -/
theorem C7_malformed_rollout_fails_witness :
    MaterializationMethod.deferred.isDeferred = true ∧
    ∃ msg, DiskStateOptions.new RolloutSetting.malformed
        MaterializationMethod.deferred = .error (.conf msg) :=
  ⟨rfl, C7_malformed_rollout_fails RolloutSetting.malformed
    MaterializationMethod.deferred rfl rfl⟩

/-- On a successful pass, every surviving entry is a real directory
entry with a decodable name in the allow-list. -/
theorem reconcile_ok_sound (known : List String) (rf : String → Option String) :
    ∀ l : List (Except String DirEntry),
      (reconcileEntries known rf l).1 = .ok () →
      ∀ x ∈ (reconcileEntries known rf l).2,
        ∃ e s, x = Except.ok e ∧ OsName.toStr e.name = some s ∧
          s ∈ known ∧ e.isDir = true
  | [] => by simp [reconcile_nil]
  | .error er :: rest => by
      rw [reconcile_read_err]
      intro hok
      simp at hok
  | .ok entry :: rest => by
      intro hok x hx
      rcases hn : OsName.toStr entry.name with _ | s
      · rw [reconcile_bad_name known rf entry rest hn] at hok
        simp at hok
      · rcases hb : (!(known.contains s) || !entry.isDir) with _ | _
        · rw [reconcile_keep known rf entry rest s hn hb] at hok hx
          simp only [Bool.or_eq_false_iff, Bool.not_eq_false'] at hb
          rcases List.mem_cons.1 hx with he | he
          · exact ⟨entry, s, he, hn, by simpa using hb.1, hb.2⟩
          · exact reconcile_ok_sound known rf rest hok x he
        · rcases hrf : rf s with _ | m
          · rw [reconcile_del_ok known rf entry rest s hn hb hrf] at hok hx
            exact reconcile_ok_sound known rf rest hok x hx
          · rw [reconcile_del_fail known rf entry rest s m hn hb hrf] at hok
            simp at hok

/-- C1: for every cache directory path, allow-list and filesystem state,
if `delete_unknown_disk_state` returns `Ok` then every direct child of
the cache directory that still exists afterwards is a directory whose
name is in the allow-list; no other entry remains. -/
theorem C1_surviving_children_are_known_dirs (path : String)
    (known : List String) (fs : Fs)
    (h : (delete_unknown_disk_state path known fs).1 = .ok ()) :
    ∀ x ∈ ((delete_unknown_disk_state path known fs).2).children,
      ∃ e s, x = Except.ok e ∧ OsName.toStr e.name = some s ∧
        s ∈ known ∧ e.isDir = true := by
  rcases hc : fs.contents with _ | entries
  · rw [delete_unknown_eq_absent path known fs hc]
    intro x hx
    simp [Fs.children, hc] at hx
  · rcases hr : fs.readDirError with _ | er
    · rw [delete_unknown_eq_run path known fs entries hc hr] at h ⊢
      intro x hx
      have h1 : (reconcileEntries known fs.removeFails entries).1 = .ok () := by
        rcases hre : (reconcileEntries known fs.removeFails entries).1 with e | u
        · rw [hre] at h
          simp [Except.mapError] at h
        · rfl
      exact reconcile_ok_sound known fs.removeFails entries h1 x
        (by simpa [Fs.children] using hx)
    · rw [delete_unknown_eq_read_err path known fs entries er hc hr] at h
      simp at h

/-- C1 witness: a concrete run over `sampleFs` with allow-list
containing only the known directory name. -/
theorem C1_surviving_children_are_known_dirs_witness :
    (delete_unknown_disk_state "buck-out/v2/cache" ["materializer_state"]
        sampleFs).1 = .ok () ∧
    ∃ e s,
      (Except.ok (⟨OsName.utf8 "materializer_state", true⟩ : DirEntry) :
          Except String DirEntry) = Except.ok e ∧
      OsName.toStr e.name = some s ∧ s ∈ ["materializer_state"] ∧
      e.isDir = true :=
  ⟨by decide,
    C1_surviving_children_are_known_dirs "buck-out/v2/cache"
      ["materializer_state"] sampleFs (by decide)
      (Except.ok ⟨OsName.utf8 "materializer_state", true⟩) (by decide)⟩

/-- On a successful pass, an entry that is a directory with a decodable
allow-listed name survives. -/
theorem reconcile_keep_mem (known : List String) (rf : String → Option String) :
    ∀ (l : List (Except String DirEntry)) (e : DirEntry) (s : String),
      (reconcileEntries known rf l).1 = .ok () →
      Except.ok e ∈ l → OsName.toStr e.name = some s →
      s ∈ known → e.isDir = true →
      Except.ok e ∈ (reconcileEntries known rf l).2
  | [] => by
      intro e s _ hmem
      simp at hmem
  | .error er :: rest => by
      intro e s hok
      rw [reconcile_read_err] at hok
      simp at hok
  | .ok entry :: rest => by
      intro e s hok hmem hs hk hd
      rcases hn : OsName.toStr entry.name with _ | t
      · rw [reconcile_bad_name known rf entry rest hn] at hok
        simp at hok
      · rcases hb : (!(known.contains t) || !entry.isDir) with _ | _
        · rw [reconcile_keep known rf entry rest t hn hb] at hok ⊢
          rcases List.mem_cons.1 hmem with he | he
          · rw [Except.ok.inj he]
            exact List.mem_cons_self _ _
          · exact List.mem_cons_of_mem _
              (reconcile_keep_mem known rf rest e s hok he hs hk hd)
        · rcases List.mem_cons.1 hmem with he | he
          · exfalso
            have he' := Except.ok.inj he
            subst he'
            rw [hn] at hs
            have ht : t = s := Option.some.inj hs
            subst ht
            simp only [hd, Bool.not_true, Bool.or_false] at hb
            rw [Bool.not_eq_true'] at hb
            exact absurd hk (by simpa using hb)
          · rcases hrf : rf t with _ | m
            · rw [reconcile_del_ok known rf entry rest t hn hb hrf] at hok ⊢
              exact reconcile_keep_mem known rf rest e s hok he hs hk hd
            · rw [reconcile_del_fail known rf entry rest t m hn hb hrf] at hok
              simp at hok

/-- C5: on a successful run, a direct child with decodable name survives
exactly when its name is in the allow-list and it is a directory; its
(abstract) contents are untouched, every other child is recursively
deleted. -/
theorem C5_keep_iff_known_dir (path : String) (known : List String)
    (fs : Fs) (e : DirEntry) (s : String)
    (hok : (delete_unknown_disk_state path known fs).1 = .ok ())
    (hs : OsName.toStr e.name = some s)
    (hmem : Except.ok e ∈ fs.children) :
    Except.ok e ∈ ((delete_unknown_disk_state path known fs).2).children ↔
      (s ∈ known ∧ e.isDir = true) := by
  rcases hc : fs.contents with _ | entries
  · rw [delete_unknown_eq_absent path known fs hc]
    simp [Fs.children, hc] at hmem
  · rcases hr : fs.readDirError with _ | er
    · rw [delete_unknown_eq_run path known fs entries hc hr] at hok ⊢
      have h1 : (reconcileEntries known fs.removeFails entries).1 = .ok () := by
        rcases hre : (reconcileEntries known fs.removeFails entries).1 with e' | u
        · rw [hre] at hok
          simp [Except.mapError] at hok
        · rfl
      constructor
      · intro hx
        rcases reconcile_ok_sound known fs.removeFails entries h1 _
            (by simpa [Fs.children] using hx) with ⟨e', s', hxe, hn', hk', hd'⟩
        have hee : e = e' := Except.ok.inj hxe
        subst hee
        rw [hs] at hn'
        have hss : s' = s := (Option.some.inj hn').symm
        subst hss
        exact ⟨hk', hd'⟩
      · intro ⟨hk, hd⟩
        have := reconcile_keep_mem known fs.removeFails entries e s h1
          (by simpa [Fs.children, hc] using hmem) hs hk hd
        simpa [Fs.children] using this
    · rw [delete_unknown_eq_read_err path known fs entries er hc hr] at hok
      simp at hok

/-- C5 witness: in the concrete run over `sampleFs`, the known directory
survives and the unknown plain file is deleted. -/
theorem C5_keep_iff_known_dir_witness :
    (Except.ok (⟨OsName.utf8 "junk", false⟩ : DirEntry) ∈
        ((delete_unknown_disk_state "buck-out/v2/cache"
          ["materializer_state"] sampleFs).2).children ↔
      ("junk" ∈ ["materializer_state"] ∧ false = true)) ∧
    ¬ (Except.ok (⟨OsName.utf8 "junk", false⟩ : DirEntry) ∈
        ((delete_unknown_disk_state "buck-out/v2/cache"
          ["materializer_state"] sampleFs).2).children) := by
  have h := C5_keep_iff_known_dir "buck-out/v2/cache" ["materializer_state"]
    sampleFs ⟨OsName.utf8 "junk", false⟩ "junk" (by decide) rfl (by decide)
  exact ⟨h, fun hmem => by simpa using h.mp hmem⟩

/-- The surviving-entry list of a pass is a fixpoint: a second pass over
it deletes nothing. -/
theorem reconcile_fix (known : List String) (rf : String → Option String) :
    ∀ l : List (Except String DirEntry),
      (reconcileEntries known rf ((reconcileEntries known rf l).2)).2 =
        (reconcileEntries known rf l).2
  | [] => by simp [reconcile_nil]
  | .error er :: rest => by
      simp [reconcile_read_err]
  | .ok entry :: rest => by
      rcases hn : OsName.toStr entry.name with _ | s
      · simp [reconcile_bad_name known rf entry rest hn]
      · rcases hb : (!(known.contains s) || !entry.isDir) with _ | _
        · simp [reconcile_keep known rf entry rest s hn hb,
            reconcile_keep known rf entry
              ((reconcileEntries known rf rest).2) s hn hb,
            reconcile_fix known rf rest]
        · rcases hrf : rf s with _ | m
          · rw [reconcile_del_ok known rf entry rest s hn hb hrf]
            exact reconcile_fix known rf rest
          · simp [reconcile_del_fail known rf entry rest s m hn hb hrf]

/-- C8: reconciliation is idempotent: running `delete_unknown_disk_state`
twice in succession with the same allow-list leaves the same filesystem
as running it once; in particular the second run deletes nothing. -/
theorem C8_reconcile_idempotent (path : String) (known : List String)
    (fs : Fs) :
    (delete_unknown_disk_state path known
        ((delete_unknown_disk_state path known fs).2)).2 =
      (delete_unknown_disk_state path known fs).2 := by
  rcases hc : fs.contents with _ | entries
  · rw [delete_unknown_eq_absent path known fs hc,
      delete_unknown_eq_absent path known fs hc]
  · rcases hr : fs.readDirError with _ | er
    · rw [delete_unknown_eq_run path known fs entries hc hr,
        delete_unknown_eq_run path known
          { fs with
            contents := some (reconcileEntries known fs.removeFails entries).2 }
          (reconcileEntries known fs.removeFails entries).2 rfl hr]
      rw [show ({ fs with
          contents := some (reconcileEntries known fs.removeFails entries).2 } :
            Fs).removeFails = fs.removeFails from rfl]
      rw [reconcile_fix known fs.removeFails entries]
    · rw [delete_unknown_eq_read_err path known fs entries er hc hr,
        delete_unknown_eq_read_err path known fs entries er hc hr]

/-- Running the pass over a list whose entries all decode and delete
cleanly up to an undecodable name stops at that name: the prefix is
filtered down to its surviving entries, the bad entry and everything
after it stay untouched, and the pass reports the decode error. -/
theorem reconcile_clean_until_bad (known : List String)
    (rf : String → Option String) :
    ∀ (l₁ : List (Except String DirEntry)) (bad : DirEntry)
      (l₂ : List (Except String DirEntry)),
      OsName.toStr bad.name = none →
      (∀ x ∈ l₁, entryDecodes x = true ∧ removeOk rf x = true) →
      reconcileEntries known rf (l₁ ++ Except.ok bad :: l₂) =
        (.error (.msg "Filename is not UTF-8"),
          l₁.filter (keptEntry known) ++ Except.ok bad :: l₂)
  | [] => by
      intro bad l₂ hbad _
      simpa using reconcile_bad_name known rf bad l₂ hbad
  | x :: t => by
      intro bad l₂ hbad hclean
      have hx := hclean x (List.mem_cons_self x t)
      have hrest : ∀ y ∈ t, entryDecodes y = true ∧ removeOk rf y = true :=
        fun y hy => hclean y (List.mem_cons_of_mem _ hy)
      rcases x with er | e
      · have h1 := hx.1
        simp [entryDecodes] at h1
      · rcases hn : OsName.toStr e.name with _ | s
        · have h1 := hx.1
          simp [entryDecodes, hn] at h1
        · rw [List.cons_append]
          rcases hb : (!(known.contains s) || !e.isDir) with _ | _
          · have hb2 := hb
            rw [← Bool.not_and, Bool.not_eq_false'] at hb2
            simp at hb2
            have hkept : keptEntry known (Except.ok e) = true := by
              simp [keptEntry, hn, hb2.1, hb2.2]
            rw [reconcile_keep known rf e (t ++ Except.ok bad :: l₂) s hn hb,
              reconcile_clean_until_bad known rf t bad l₂ hbad hrest]
            simp [List.filter_cons, hkept]
          · have hrf : rf s = none := by
              have h2 := hx.2
              simp [removeOk, hn, Option.isNone_iff_eq_none] at h2
              exact h2
            have hb2 := hb
            rw [← Bool.not_and, Bool.not_eq_true'] at hb2
            simp at hb2
            have hkept : keptEntry known (Except.ok e) = false := by
              simp [keptEntry, hn]
              exact hb2
            rw [reconcile_del_ok known rf e (t ++ Except.ok bad :: l₂) s hn hb
                hrf,
              reconcile_clean_until_bad known rf t bad l₂ hbad hrest]
            simp [List.filter_cons, hkept]

/-- C9: an undecodable child name makes `delete_unknown_disk_state` fail
for the whole operation rather than skip or delete that entry; every
error it returns is wrapped with context naming the cache directory
path; entries already deleted before the failure remain deleted and
later entries are untouched. -/
theorem C9_bad_name_fails (path : String) (known : List String) (fs : Fs)
    (l₁ l₂ : List (Except String DirEntry)) (bad : DirEntry)
    (hbad : OsName.toStr bad.name = none)
    (hcontents : fs.contents = some (l₁ ++ Except.ok bad :: l₂))
    (hrd : fs.readDirError = none)
    (hclean : ∀ x ∈ l₁,
      entryDecodes x = true ∧ removeOk fs.removeFails x = true) :
    (∀ (fs' : Fs) (er : Err),
        (delete_unknown_disk_state path known fs').1 = .error er →
        ∃ e0, er = reconcileContext path e0) ∧
    (delete_unknown_disk_state path known fs).1 =
      .error (reconcileContext path (.msg "Filename is not UTF-8")) ∧
    ((delete_unknown_disk_state path known fs).2).children =
      l₁.filter (keptEntry known) ++ Except.ok bad :: l₂ := by
  refine ⟨?_, ?_, ?_⟩
  · intro fs' er her
    rcases hc' : fs'.contents with _ | entries'
    · rw [delete_unknown_eq_absent path known fs' hc'] at her
      simp at her
    · rcases hr' : fs'.readDirError with _ | e'
      · rw [delete_unknown_eq_run path known fs' entries' hc' hr'] at her
        rcases hre : (reconcileEntries known fs'.removeFails entries').1
          with e0 | u
        · rw [hre] at her
          exact ⟨e0, (Except.error.inj her).symm⟩
        · rw [hre] at her
          simp [Except.mapError] at her
      · rw [delete_unknown_eq_read_err path known fs' entries' e' hc' hr']
          at her
        exact ⟨.io e', (Except.error.inj her).symm⟩
  · rw [delete_unknown_eq_run path known fs _ hcontents hrd,
      reconcile_clean_until_bad known fs.removeFails l₁ bad l₂ hbad hclean]
    rfl
  · rw [delete_unknown_eq_run path known fs _ hcontents hrd,
      reconcile_clean_until_bad known fs.removeFails l₁ bad l₂ hbad hclean]
    rfl

/-- C9 witness: a concrete run over `sampleBadFs`: the deletable prefix
entry is gone, the undecodable entry and the one after it survive, and
the reported error carries the cache directory context. -/
theorem C9_bad_name_fails_witness :
    (delete_unknown_disk_state "buck-out/v2/cache" ["materializer_state"]
        sampleBadFs).1 =
      .error (reconcileContext "buck-out/v2/cache"
        (.msg "Filename is not UTF-8")) ∧
    ((delete_unknown_disk_state "buck-out/v2/cache" ["materializer_state"]
        sampleBadFs).2).children =
      [Except.ok ⟨OsName.nonUtf8 0, true⟩,
        Except.ok ⟨OsName.utf8 "later", true⟩] := by
  have h := C9_bad_name_fails "buck-out/v2/cache" ["materializer_state"]
    sampleBadFs [Except.ok ⟨OsName.utf8 "junk", false⟩]
    [Except.ok ⟨OsName.utf8 "later", true⟩] ⟨OsName.nonUtf8 0, true⟩
    rfl rfl rfl (by decide)
  refine ⟨h.2.1, ?_⟩
  rw [h.2.2]
  rfl

/-- C2: with the sqlite materializer state disabled,
`maybe_initialize_materializer_sqlite_db` recursively deletes the
materializer-state path and returns `(None, None)`: after a successful
call the path does not exist, whether or not it existed before, and a
deletion failure is propagated as an error, not absorbed. -/
theorem C2_disabled_deletes_state (options : DiskStateOptions)
    (dmc : DeferredMaterializerConfigs) (ts : String) (w : StoreWorld)
    (h : options.sqlite_materializer_state = false) :
    (w.removeMatState = .ok () →
      (maybe_initialize_materializer_sqlite_db options dmc ts w).1 =
          .ok (none, none) ∧
        ((maybe_initialize_materializer_sqlite_db options dmc ts
          w).2).matStatePathExists = false) ∧
    (∀ e, w.removeMatState = .error e →
      (maybe_initialize_materializer_sqlite_db options dmc ts w).1 =
        .error (.io e)) := by
  constructor
  · intro hr
    constructor <;> simp [maybe_initialize_materializer_sqlite_db, h, hr]
  · intro e hr
    simp [maybe_initialize_materializer_sqlite_db, h, hr]

/-- C2 witness: a concrete disabled-path run over `sampleWorld`, whose
materializer-state path exists beforehand. -/
theorem C2_disabled_deletes_state_witness :
    (maybe_initialize_materializer_sqlite_db ⟨false⟩ ⟨true⟩
        "2023-01-02T00:00:00+00:00" sampleWorld).1 = .ok (none, none) ∧
    ((maybe_initialize_materializer_sqlite_db ⟨false⟩ ⟨true⟩
        "2023-01-02T00:00:00+00:00" sampleWorld).2).matStatePathExists =
      false :=
  (C2_disabled_deletes_state ⟨false⟩ ⟨true⟩ "2023-01-02T00:00:00+00:00"
    sampleWorld rfl).1 rfl

/-- C3: in the enabled branch, the prior-state load result is absorbed:
`Ok state` becomes `Some state` and every `Err` becomes `None`; a load
error never fails the initialization call. -/
theorem C3_load_errors_absorbed (options : DiskStateOptions)
    (dmc : DeferredMaterializerConfigs) (ts : String) (w : StoreWorld)
    (vOpt : Option String) (db : StoreHandle)
    (lr : Except String MaterializerState) (tsv : String)
    (he : options.sqlite_materializer_state = true)
    (hv : w.versionParse = .ok vOpt)
    (hi : w.storeInit = .ok (db, lr))
    (ht : db.getTimestampOnInit = .ok (some tsv)) :
    (∀ s, lr = .ok s →
      (maybe_initialize_materializer_sqlite_db options dmc ts w).1 =
        .ok (some (db, ⟨tsv⟩), some s)) ∧
    (∀ e, lr = .error e →
      (maybe_initialize_materializer_sqlite_db options dmc ts w).1 =
        .ok (some (db, ⟨tsv⟩), none)) := by
  constructor
  · intro s hlr
    simp [maybe_initialize_materializer_sqlite_db, he, hv, hi, ht, hlr]
  · intro e hlr
    simp [maybe_initialize_materializer_sqlite_db, he, hv, hi, ht, hlr]

/-- C3 witness: a concrete enabled-path run over `sampleWorld`, whose
load fails with a version mismatch and is absorbed into `None`. -/
theorem C3_load_errors_absorbed_witness :
    (maybe_initialize_materializer_sqlite_db ⟨true⟩ ⟨true⟩
        "2023-01-02T00:00:00+00:00" sampleWorld).1 =
      .ok (some (sampleDb, ⟨"2023-01-01T00:00:00+00:00"⟩), none) :=
  (C3_load_errors_absorbed ⟨true⟩ ⟨true⟩ "2023-01-02T00:00:00+00:00"
    sampleWorld none sampleDb (.error "version mismatch")
    "2023-01-01T00:00:00+00:00" rfl rfl rfl rfl).2 "version mismatch" rfl

/-- C4: in the enabled branch, if the opened store has no value under the
timestamp metadata key the whole initialization fails with an error,
never a `None` identity or "no prior state"; when the value is present
it is wrapped as the identity and returned paired with the handle. -/
theorem C4_missing_timestamp_is_fatal (options : DiskStateOptions)
    (dmc : DeferredMaterializerConfigs) (ts : String) (w : StoreWorld)
    (vOpt : Option String) (db : StoreHandle)
    (lr : Except String MaterializerState)
    (he : options.sqlite_materializer_state = true)
    (hv : w.versionParse = .ok vOpt)
    (hi : w.storeInit = .ok (db, lr)) :
    (db.getTimestampOnInit = .ok none →
      (maybe_initialize_materializer_sqlite_db options dmc ts w).1 =
        .error (.msg ("disk state is missing " ++ timestamp_key))) ∧
    (∀ tsv, db.getTimestampOnInit = .ok (some tsv) →
      ∃ ms, (maybe_initialize_materializer_sqlite_db options dmc ts w).1 =
        .ok (some (db, MaterializerStateIdentity.mk tsv), ms)) := by
  constructor
  · intro ht
    simp [maybe_initialize_materializer_sqlite_db, he, hv, hi, ht]
  · intro tsv ht
    rcases lr with e | s
    · exact ⟨none,
        by simp [maybe_initialize_materializer_sqlite_db, he, hv, hi, ht]⟩
    · exact ⟨some s,
        by simp [maybe_initialize_materializer_sqlite_db, he, hv, hi, ht]⟩

/-- C4 witness: a concrete enabled-path run over `sampleWorldNoTs`,
whose opened store lacks the timestamp metadata: the call fails. -/
theorem C4_missing_timestamp_is_fatal_witness :
    (maybe_initialize_materializer_sqlite_db ⟨true⟩ ⟨true⟩
        "2023-01-02T00:00:00+00:00" sampleWorldNoTs).1 =
      .error (.msg ("disk state is missing " ++ timestamp_key)) :=
  (C4_missing_timestamp_is_fatal ⟨true⟩ ⟨true⟩ "2023-01-02T00:00:00+00:00"
    sampleWorldNoTs none sampleDbNoTs (.error "not found") rfl rfl rfl).1 rfl

end DiskState
